import Mathlib

/-!
Verification of the real-time transcription pipeline in `src/main.py`
(`TranscriptionService`).  The Python code is shallowly embedded:

* a `Frame` is the int16 sample vector obtained by `np.frombuffer(in_data,
  dtype=np.int16)` in `audio_callback`, modelled as `List Int` with samples
  in the int16 range;
* `audio_callback` appends a frame to `audio_buffer` when
  `np.abs(audio_data).mean() > SILENCE_THRESHOLD_MEAN`; numpy's `np.abs`
  on an int16 array wraps in two's complement, so `abs(-32768) = -32768`
  (modelled by `npAbs16`), and `mean > t` is modelled exactly as
  `t * length < sum` over the integers;
* one iteration of the `while self.running` loop in `transcribe_audio`
  is split into `drainBuffer` (the copy/truncate/clear of `audio_buffer`),
  `transcribe_result` / `transcription_text` (the no-speech filter and
  `" ".join`), `cycle_text` (the `' (truncated)'` suffix), and
  `transcribe_cycle` / `transcribe_tick` (the `if text.strip()` append and
  yield, and the `running` flag behaviour);
* the transcriber's output for a burst is an opaque parameter
  `List SubSegment`, its `no_speech_prob` modelled as a rational;
* `handle_exit` is the SIGINT/SIGTERM handler;
* `translate_llm_tick` / `translate_run` model one poll / a run of polls of
  the `translate` consumer, with the LLM call as an opaque
  `String → Except String String` (an `Except.error` models the Python
  exception propagating out of `translate`, which has no handler).
-/

set_option autoImplicit false

namespace SecureTransPad

/-- Source constant `SILENCE_THRESHOLD_MEAN = 300`. -/
def SILENCE_THRESHOLD_MEAN : Int := 300

/-- Source constant `TRUNC_AUDIO_BUFFER = 60`. -/
def TRUNC_AUDIO_BUFFER : Nat := 60

/-- A captured frame: the int16 samples of one `audio_callback` chunk. -/
abbrev Frame := List Int

/-- Wrap an integer into int16 two's-complement range. -/
def int16Wrap (x : Int) : Int := (x + 32768) % 65536 - 32768

/-- `np.abs` on one int16 sample: the absolute value computed in int16,
which wraps, so `npAbs16 (-32768) = -32768`. -/
def npAbs16 (x : Int) : Int := int16Wrap |x|

/-- The amplitude gate of `audio_callback`:
`np.abs(audio_data).mean() > SILENCE_THRESHOLD_MEAN`, stated over the
integers as `threshold * length < sum of int16 absolute values`
(for a nonempty frame this is exactly `mean > threshold`; for an empty
frame numpy's mean is NaN and the comparison is false, as here). -/
def audio_callback_keeps (f : Frame) : Bool :=
  decide (SILENCE_THRESHOLD_MEAN * (f.length : Int) < (f.map npAbs16).sum)

/-- `audio_callback`: append the frame to the audio buffer iff the gate
keeps it. -/
def audio_callback (buf : List Frame) (f : Frame) : List Frame :=
  if audio_callback_keeps f then buf ++ [f] else buf

/-- Feed a sequence of captured frames through `audio_callback`. -/
def feed_frames (buf : List Frame) (fs : List Frame) : List Frame :=
  fs.foldl audio_callback buf

/-- Result of the copy/truncate/clear step of `transcribe_audio`
(lines 103–113). -/
structure DrainResult where
  burst : List Frame
  is_trunc : Bool
  newBuffer : List Frame
deriving DecidableEq

/-- The drain step of `transcribe_audio`: if the buffer holds more than
`TRUNC_AUDIO_BUFFER` frames, keep only the first `TRUNC_AUDIO_BUFFER` and
set `is_trunc`; either way `self.audio_buffer = []` afterwards. -/
def drainBuffer (buf : List Frame) : DrainResult :=
  if TRUNC_AUDIO_BUFFER < buf.length then
    ⟨buf.take TRUNC_AUDIO_BUFFER, true, []⟩
  else
    ⟨buf, false, []⟩

/-- One sub-segment returned by the Transcriber capability
(`{text, no_speech_prob}`); the probability is modelled as a rational. -/
structure SubSegment where
  text : String
  no_speech_prob : ℚ
deriving DecidableEq

/-- The `result` list built by the loop in `transcribe_audio` (lines
144–148): texts of sub-segments with `no_speech_prob < 0.5`, in order. -/
def transcribe_result (segs : List SubSegment) : List String :=
  segs.foldl (fun acc s => if s.no_speech_prob < 1/2 then acc ++ [s.text] else acc) []

/-- `text = " ".join(result)` (line 150). -/
def transcription_text (segs : List SubSegment) : String :=
  String.intercalate " " (transcribe_result segs)

/-- The `' (truncated)'` suffix added when the drain was truncated
(lines 151–152). -/
def cycle_text (segs : List SubSegment) (is_trunc : Bool) : String :=
  if is_trunc then transcription_text segs ++ " (truncated)" else transcription_text segs

/-- Python's `str.strip()` on the character list: whitespace removed from
both ends. -/
def pyStripList (l : List Char) : List Char :=
  ((l.dropWhile Char.isWhitespace).reverse.dropWhile Char.isWhitespace).reverse

/-- Python's `str.strip()` (used by `if text.strip():`, line 176). -/
def pyStrip (s : String) : String := ⟨pyStripList s.data⟩

/-- Outcome of one drain cycle on the transcript log: the new log and the
value yielded to the display consumer, if any. -/
structure CycleOutput where
  newLog : List String
  yielded : Option String
deriving DecidableEq

/-- Lines 150–182 of `transcribe_audio` for one drained burst:
`text` (with the truncation suffix), `text_with_delay`, and the
`if text.strip():` append-and-yield.  `delayStr` stands for the opaque
formatted `f"{delay:.2f}"` value.  The `segment_timestamps` bookkeeping
and temp-file cleanup touch neither the log nor the yielded value and are
omitted. -/
def transcribe_cycle (log : List String) (segs : List SubSegment) (is_trunc : Bool)
    (show_delay : Bool) (delayStr : String) : CycleOutput :=
  let text := cycle_text segs is_trunc
  let text_with_delay := text ++ " [Delay: " ++ delayStr ++ "s]"
  if pyStrip text = "" then ⟨log, none⟩
  else ⟨log ++ [text], some (if show_delay then text_with_delay else text)⟩

/-- Parameters of one drain cycle: the transcriber's answer for the burst,
whether the drain truncated, and the display options. -/
structure CycleInput where
  segs : List SubSegment
  is_trunc : Bool
  show_delay : Bool
  delayStr : String

/-- A sequence of successful drain cycles acting on the transcript log. -/
def transcribe_run (log : List String) (inputs : List CycleInput) : List String :=
  inputs.foldl
    (fun l i => (transcribe_cycle l i.segs i.is_trunc i.show_delay i.delayStr).newLog) log

/-- The PyAudio stream handle: `is_active()` and whether `close()` was
called. -/
structure StreamState where
  active : Bool
  closed : Bool
deriving DecidableEq

/-- The mutable state of `TranscriptionService` relevant to shutdown and
the drain loop: the two buffers, the `running` flag, the stream handle
(`none` models `self.stream is None`), whether `self.p_audio` is set and
whether `terminate()` has been called on it. -/
structure ServiceState where
  audio_buffer : List Frame
  transcript_buffer : List String
  running : Bool
  stream : Option StreamState
  p_audio_present : Bool
  p_audio_terminated : Bool
deriving DecidableEq

/-- One iteration of the `while self.running` loop of `transcribe_audio`,
as the code performs it: the `running` flag is consulted only at the loop
head; if the buffer is nonempty the cycle runs to completion and appends
its non-empty text without looking at `running` again.  `runningAfterCall`
is the value the flag holds once the in-flight `model.transcribe` call
returns (a signal handler may have cleared it meanwhile). -/
def transcribe_tick (s : ServiceState) (segs : List SubSegment)
    (runningAfterCall : Bool) : ServiceState :=
  if s.running then
    if s.audio_buffer.isEmpty then s
    else
      let text := cycle_text segs (drainBuffer s.audio_buffer).is_trunc
      { s with
        audio_buffer := [],
        transcript_buffer :=
          if pyStrip text = "" then s.transcript_buffer
          else s.transcript_buffer ++ [text],
        running := runningAfterCall }
  else s

/-- `handle_exit` (lines 53–66): clear `running`; if the stream exists and
is active, stop and close it; if `p_audio` exists, terminate it. -/
def handle_exit (s : ServiceState) : ServiceState :=
  let s1 : ServiceState := { s with running := false }
  let s2 : ServiceState :=
    match s1.stream with
    | some st => if st.active then { s1 with stream := some ⟨false, true⟩ } else s1
    | none => s1
  if s2.p_audio_present then { s2 with p_audio_terminated := true } else s2

/-- One poll of the `translate` consumer (`translate-llm` mode, lines
200–221): if the cursor is behind the log, read the entry at the cursor,
call the model — `Except.error` models the awaited call raising, which
`translate` does not catch, so the error escapes the consumer — and on
success print and advance the cursor by one. -/
def translate_llm_tick (tr : String → Except String String) (log : List String)
    (c : Nat) : Except String (Nat × Option String) :=
  if h : c < log.length then
    match tr (log.get ⟨c, h⟩) with
    | Except.ok out => Except.ok (c + 1, some out)
    | Except.error e => Except.error e
  else Except.ok (c, none)

/-- A run of `translate` polls: one poll per log snapshot, returning the
final cursor and the list of positions actually read.  An uncaught model
error ends the run (the consumer task dies with the exception). -/
def translate_run (tr : String → Except String String) :
    List (List String) → Nat → Nat × List Nat
  | [], c => (c, [])
  | log :: rest, c =>
    if h : c < log.length then
      match tr (log.get ⟨c, h⟩) with
      | Except.ok _ =>
        ((translate_run tr rest (c + 1)).1, c :: (translate_run tr rest (c + 1)).2)
      | Except.error _ => (c, [c])
    else translate_run tr rest c

/-- Helper: the drained burst is always the first `TRUNC_AUDIO_BUFFER`
frames of the buffer (`take` is the whole buffer when it is short). -/
lemma drainBuffer_burst (buf : List Frame) :
    (drainBuffer buf).burst = buf.take TRUNC_AUDIO_BUFFER := by
  unfold drainBuffer
  split_ifs with h
  · rfl
  · rw [List.take_of_length_le (Nat.le_of_not_lt h)]

/-- C1: the drained burst is exactly the first `min(length, cap)` buffered
frames in order, never exceeds the cap, `is_trunc` holds iff the length
before the drain exceeded the cap, and the buffer is left empty. -/
theorem drain_truncation_policy (buf : List Frame) :
    (drainBuffer buf).burst = buf.take TRUNC_AUDIO_BUFFER ∧
    (drainBuffer buf).burst.length = min buf.length TRUNC_AUDIO_BUFFER ∧
    (drainBuffer buf).burst.length ≤ TRUNC_AUDIO_BUFFER ∧
    ((drainBuffer buf).is_trunc = true ↔ TRUNC_AUDIO_BUFFER < buf.length) ∧
    (drainBuffer buf).newBuffer = [] := by
  have hb := drainBuffer_burst buf
  have hlen : (drainBuffer buf).burst.length = min buf.length TRUNC_AUDIO_BUFFER := by
    rw [hb, List.length_take, Nat.min_comm]
  refine ⟨hb, hlen, by omega, ?_, ?_⟩ <;> unfold drainBuffer <;> split_ifs with h <;> simp [h]

/-- Helper: the `result` list accumulated by the source loop is the
filter-by-threshold of the sub-segments, mapped to their texts. -/
lemma transcribe_result_eq_filter (segs : List SubSegment) :
    transcribe_result segs =
      (segs.filter (fun s => decide (s.no_speech_prob < 1/2))).map (fun s => s.text) := by
  have aux : ∀ (l : List SubSegment) (acc : List String),
      l.foldl (fun acc s => if s.no_speech_prob < 1/2 then acc ++ [s.text] else acc) acc =
        acc ++ (l.filter (fun s => decide (s.no_speech_prob < 1/2))).map (fun s => s.text) := by
    intro l
    induction l with
    | nil => intro acc; rw [List.foldl_nil, List.filter_nil, List.map_nil, List.append_nil]
    | cons s t ih =>
      intro acc
      rw [List.foldl_cons, List.filter_cons]
      by_cases h : s.no_speech_prob < 1/2
      · rw [if_pos h, if_pos (decide_eq_true h), ih, List.map_cons]
        rw [List.append_assoc, List.singleton_append]
      · rw [if_neg h, if_neg (fun hc => h (of_decide_eq_true hc)), ih]
  have := aux segs []
  rw [List.nil_append] at this
  exact this

/-- C7: exactly the sub-segments with no-speech probability below 0.5 are
kept, in order, and the text is their texts joined with single spaces;
for a kept sub-segment followed by a dropped one, the resulting text is
the kept sub-segment's text alone. -/
theorem no_speech_filter_policy (segs : List SubSegment) (s1 s2 : SubSegment)
    (h1 : s1.no_speech_prob < 1/2) (h2 : ¬ s2.no_speech_prob < 1/2) :
    transcription_text segs =
      String.intercalate " "
        ((segs.filter (fun s => decide (s.no_speech_prob < 1/2))).map (fun s => s.text)) ∧
    transcription_text [s1, s2] = s1.text := by
  constructor
  · rw [transcription_text, transcribe_result_eq_filter]
  · rw [transcription_text, transcribe_result_eq_filter]
    rw [List.filter_cons, if_pos (decide_eq_true h1), List.filter_cons,
      if_neg (fun hc => h2 (of_decide_eq_true hc)), List.filter_nil,
      List.map_cons, List.map_nil]
    rfl

/-- Witness for `no_speech_filter_policy` at probabilities 0.2 and 0.7. -/
theorem no_speech_filter_policy_witness :
    transcription_text [⟨"Hello", 1/5⟩, ⟨"noise", 7/10⟩] = "Hello" :=
  (no_speech_filter_policy [] ⟨"Hello", 1/5⟩ ⟨"noise", 7/10⟩
    (by norm_num) (by norm_num)).2

/-- C2 (amended): when the surviving text is empty after stripping and the
burst was not truncated, no Segment is appended and nothing is yielded;
but when the burst was truncated, a Segment is appended even though the
surviving text is empty, carrying just the `' (truncated)'` marker. -/
theorem empty_text_no_append (log : List String) (segs : List SubSegment)
    (sd : Bool) (ds : String) :
    (pyStrip (transcription_text segs) = "" →
      (transcribe_cycle log segs false sd ds).newLog = log ∧
      (transcribe_cycle log segs false sd ds).yielded = none ∧
      (transcribe_cycle log segs false sd ds).newLog.length = log.length) ∧
    (transcription_text segs = "" →
      (transcribe_cycle log segs true sd ds).newLog = log ++ [" (truncated)"]) := by
  constructor
  · intro h
    simp [transcribe_cycle, cycle_text, h]
  · intro h
    have htext : cycle_text segs true = " (truncated)" := by
      rw [cycle_text, if_pos rfl, h]
      rfl
    have hstrip : pyStrip " (truncated)" = "" ↔ False := by decide
    simp [transcribe_cycle, htext, hstrip]

/-- Witness for `empty_text_no_append`: a sub-segment list whose only
entry is dropped by the no-speech filter. -/
theorem empty_text_no_append_witness :
    (transcribe_cycle ["a"] [⟨"speech", 7/10⟩] false false "d").newLog = ["a"] ∧
    (transcribe_cycle ["a"] [⟨"speech", 7/10⟩] true false "d").newLog = ["a", " (truncated)"] := by
  have h : transcription_text [⟨"speech", (7:ℚ)/10⟩] = "" := by
    norm_num [transcription_text, transcribe_result]
    rfl
  refine ⟨((empty_text_no_append ["a"] [⟨"speech", 7/10⟩] false "d").1 (by rw [h]; rfl)).1, ?_⟩
  have h2 := (empty_text_no_append ["a"] [⟨"speech", 7/10⟩] false "d").2 h
  simpa using h2

/-- C2 (counterexample to the claim as stated): a truncated drain whose
surviving text is empty after stripping still appends a Segment, so the
log length changes. -/
theorem empty_text_truncated_still_appends :
    pyStrip (transcription_text [⟨"speech", 7/10⟩]) = "" ∧
    (transcribe_cycle [] [⟨"speech", 7/10⟩] true false "0.10").newLog ≠ [] := by
  have h : transcription_text [⟨"speech", (7:ℚ)/10⟩] = "" := by
    norm_num [transcription_text, transcribe_result]
    rfl
  constructor
  · rw [h]; rfl
  · have htext : cycle_text [⟨"speech", (7:ℚ)/10⟩] true = " (truncated)" := by
      rw [cycle_text, if_pos rfl, h]
      rfl
    have hstrip : pyStrip " (truncated)" = "" ↔ False := by decide
    simp [transcribe_cycle, htext, hstrip]

/-- C10: the entry appended to the transcript log is the plain cycle text
— the same whatever `show_delay` and the formatted delay are — while the
`' [Delay: …s]'` annotation appears only on the value yielded for
display. -/
theorem log_entry_has_no_delay_suffix (log : List String) (segs : List SubSegment)
    (it : Bool) (sd sd2 : Bool) (ds ds2 : String) :
    (transcribe_cycle log segs it sd ds).newLog = (transcribe_cycle log segs it sd2 ds2).newLog ∧
    ((transcribe_cycle log segs it sd ds).newLog = log ∨
      (transcribe_cycle log segs it sd ds).newLog = log ++ [cycle_text segs it]) ∧
    ((transcribe_cycle log segs it true ds).yielded = none ∨
      (transcribe_cycle log segs it true ds).yielded =
        some (cycle_text segs it ++ " [Delay: " ++ ds ++ "s]")) ∧
    ((transcribe_cycle log segs it false ds).yielded = none ∨
      (transcribe_cycle log segs it false ds).yielded = some (cycle_text segs it)) := by
  unfold transcribe_cycle
  by_cases h : pyStrip (cycle_text segs it) = "" <;> simp [h]

/-- Helper: for int16 samples other than `-32768`, the wrapped absolute
value is the true absolute value. -/
lemma npAbs16_eq_abs {x : Int} (h1 : -32768 < x) (h2 : x < 32768) : npAbs16 x = |x| := by
  unfold npAbs16 int16Wrap
  rcases abs_cases x with ⟨he, h0⟩ | ⟨he, h0⟩ <;> rw [he] <;> omega

/-- Helper: on the int16 range the wrapped absolute value never exceeds
the true absolute value (it is smaller exactly at `-32768`). -/
lemma npAbs16_le_abs {x : Int} (h1 : -32768 ≤ x) (h2 : x < 32768) : npAbs16 x ≤ |x| := by
  unfold npAbs16 int16Wrap
  rcases abs_cases x with ⟨he, h0⟩ | ⟨he, h0⟩ <;> rw [he] <;> omega

lemma sum_npAbs16_le (f : Frame) (hr : ∀ x ∈ f, -32768 ≤ x ∧ x < 32768) :
    (f.map npAbs16).sum ≤ (f.map (fun x => |x|)).sum := by
  induction f with
  | nil => simp
  | cons a t ih =>
    have ha := hr a (by simp)
    have ht := ih (fun x hx => hr x (by simp [hx]))
    have hle := npAbs16_le_abs ha.1 ha.2
    simp only [List.map_cons, List.sum_cons]
    omega

lemma sum_npAbs16_eq (f : Frame) (hr : ∀ x ∈ f, -32768 ≤ x ∧ x < 32768)
    (hm : (-32768 : Int) ∉ f) :
    (f.map npAbs16).sum = (f.map (fun x => |x|)).sum := by
  induction f with
  | nil => simp
  | cons a t ih =>
    have ha := hr a (by simp)
    have hane : a ≠ -32768 := fun h => hm (by simp [h])
    have ht := ih (fun x hx => hr x (by simp [hx])) (fun h => hm (by simp [h]))
    have heq : npAbs16 a = |a| :=
      npAbs16_eq_abs (lt_of_le_of_ne ha.1 (fun h => hane h.symm)) ha.2
    simp only [List.map_cons, List.sum_cons, heq, ht]

/-- Helper: a frame the gate rejects never enters the audio buffer. -/
lemma not_mem_feed_frames (f : Frame) (hf : audio_callback_keeps f = false) :
    ∀ (fs buf : List Frame), f ∉ buf → f ∉ feed_frames buf fs := by
  intro fs
  induction fs with
  | nil =>
    intro buf h hmem
    exact h (by simpa [feed_frames] using hmem)
  | cons g t ih =>
    intro buf h
    have hstep : f ∉ audio_callback buf g := by
      unfold audio_callback
      split_ifs with hg
      · intro hmem
        rcases List.mem_append.mp hmem with hmem | hmem
        · exact h hmem
        · have hfg : f = g := by simpa using hmem
          rw [hfg] at hf
          exact absurd hg (by simp [hf])
      · exact h
    have hrw : feed_frames buf (g :: t) = feed_frames (audio_callback buf g) t := rfl
    rw [hrw]
    exact ih _ hstep

/-- C6 (amended): the gate keeps a frame iff the mean of the int16-wrapped
absolute sample values exceeds the threshold.  For frames containing no
`-32768` sample this coincides with the claim (`keep ↔ threshold·length <
Σ|x|`), and the drop direction of the claim holds unconditionally: a
frame whose true mean absolute amplitude is ≤ the threshold is rejected
and hence excluded from every subsequent burst. -/
theorem amplitude_gate (f : Frame) (hr : ∀ x ∈ f, -32768 ≤ x ∧ x < 32768) :
    ((-32768 : Int) ∉ f →
      (audio_callback_keeps f = true ↔
        SILENCE_THRESHOLD_MEAN * (f.length : Int) < (f.map (fun x => |x|)).sum)) ∧
    ((f.map (fun x => |x|)).sum ≤ SILENCE_THRESHOLD_MEAN * (f.length : Int) →
      audio_callback_keeps f = false) ∧
    (∀ fs : List Frame, audio_callback_keeps f = false →
      f ∉ (drainBuffer (feed_frames [] fs)).burst) := by
  refine ⟨?_, ?_, ?_⟩
  · intro hm
    rw [audio_callback_keeps, decide_eq_true_iff, sum_npAbs16_eq f hr hm]
  · intro hle
    have hws := sum_npAbs16_le f hr
    rw [audio_callback_keeps, decide_eq_false_iff_not]
    omega
  · intro fs hf hmem
    rw [drainBuffer_burst] at hmem
    exact not_mem_feed_frames f hf fs [] (by simp) (List.take_subset _ _ hmem)

/-- Witness for `amplitude_gate`: a one-sample frame of amplitude 400 is
kept. -/
theorem amplitude_gate_witness : audio_callback_keeps [(400 : Int)] = true :=
  ((amplitude_gate [400] (by decide)).1 (by decide)).mpr (by decide)

/-- C6 (counterexample to the claim as stated): the one-sample frame
`[-32768]` has true mean absolute amplitude 32768, far above the
threshold, yet the gate rejects it, because numpy's int16 `np.abs`
wraps `-32768` to `-32768`. -/
theorem amplitude_gate_counterexample :
    audio_callback_keeps [(-32768 : Int)] = false ∧
    SILENCE_THRESHOLD_MEAN * (([(-32768 : Int)] : Frame).length : Int) <
      (([(-32768 : Int)] : Frame).map (fun x => |x|)).sum := by
  constructor
  · decide
  · decide

/-- Helper: one cycle either leaves the log unchanged or appends exactly
one entry at the end (at position `log.length`). -/
lemma cycle_newLog_cases (log : List String) (segs : List SubSegment)
    (it sd : Bool) (ds : String) :
    (transcribe_cycle log segs it sd ds).newLog = log ∨
    (transcribe_cycle log segs it sd ds).newLog = log ++ [cycle_text segs it] := by
  by_cases h : pyStrip (cycle_text segs it) = "" <;> simp [transcribe_cycle, h]

lemma prefix_transcribe_cycle (log : List String) (segs : List SubSegment)
    (it sd : Bool) (ds : String) :
    log <+: (transcribe_cycle log segs it sd ds).newLog := by
  rcases cycle_newLog_cases log segs it sd ds with h | h
  · rw [h]
  · rw [h]
    exact List.prefix_append _ _

/-- C8: over any sequence of successful drain cycles the log only grows at
the end — the previous log is a prefix of the new one, so every appended
Segment keeps its text and its position (its index) forever, each append
lands at position `log.length`, and positions are the strictly increasing,
gap-free, duplicate-free indices `0, 1, 2, …`. -/
theorem log_append_only (log : List String) (inputs : List CycleInput) (i : CycleInput) :
    log <+: transcribe_run log inputs ∧
    ((transcribe_cycle log i.segs i.is_trunc i.show_delay i.delayStr).newLog = log ∨
      (transcribe_cycle log i.segs i.is_trunc i.show_delay i.delayStr).newLog
        = log ++ [cycle_text i.segs i.is_trunc]) := by
  constructor
  · induction inputs generalizing log with
    | nil => exact List.prefix_refl _
    | cons j t ih =>
      exact (prefix_transcribe_cycle log j.segs j.is_trunc j.show_delay j.delayStr).trans
        (ih ((transcribe_cycle log j.segs j.is_trunc j.show_delay j.delayStr).newLog))
  · exact cycle_newLog_cases log i.segs i.is_trunc i.show_delay i.delayStr

/-- C5: the shutdown handler is idempotent — a second invocation from the
state the first one produced changes nothing — and its terminal state has
`running = false`, an inactive stream, a terminated audio handle, and a
drain tick from that state appends nothing. -/
theorem shutdown_idempotent (s : ServiceState) (segs : List SubSegment) (r : Bool) :
    handle_exit (handle_exit s) = handle_exit s ∧
    (handle_exit s).running = false ∧
    (handle_exit s).stream.all (fun st => !st.active) = true ∧
    ((!(handle_exit s).p_audio_present) || (handle_exit s).p_audio_terminated) = true ∧
    transcribe_tick (handle_exit s) segs r = handle_exit s := by
  obtain ⟨ab, tb, run, stream, pap, pat⟩ := s
  rcases stream with _ | ⟨sa, sc⟩
  · cases pap <;> simp [handle_exit, transcribe_tick]
  · cases sa <;> cases pap <;> simp [handle_exit, transcribe_tick]

/-- C3 (divergence witness): with the service running, a nonempty audio
buffer, and a transcriber answer of "hello", a tick during which the
shutdown handler cleared the `running` flag while `model.transcribe` was
in flight still appends the segment — the code never rechecks the flag
between the transcriber returning and the append. -/
theorem append_after_shutdown :
    (transcribe_tick ⟨[[1000]], [], true, none, true, false⟩
        [⟨"hello", 0⟩] false).transcript_buffer = ["hello"] ∧
    (transcribe_tick ⟨[[1000]], [], true, none, true, false⟩
        [⟨"hello", 0⟩] false).running = false := by
  have htext : cycle_text [⟨"hello", (0:ℚ)⟩] false = "hello" := by
    norm_num [cycle_text, transcription_text, transcribe_result]
    rfl
  have hdrain : (drainBuffer [[1000]]).is_trunc = false := by decide
  constructor
  · show (transcribe_tick _ _ _).transcript_buffer = ["hello"]
    rw [transcribe_tick]
    simp only [hdrain, htext]
    norm_num
    decide
  · rw [transcribe_tick]
    simp only [hdrain, htext]
    norm_num

/-- C4 (divergence witness): a failing model call makes the whole
`translate` poll evaluate to the propagated error — the consumer's loop
ends with the exception; the cursor is not advanced and no recovery
happens. -/
theorem translation_failure_kills_consumer :
    translate_llm_tick (fun _ => Except.error "LLM failure") ["hello"] 0 =
      Except.error "LLM failure" := rfl

lemma translate_run_spec (tr : String → Except String String) :
    ∀ (logs : List (List String)) (c : Nat),
      c ≤ (translate_run tr logs c).1 ∧
      (∀ p ∈ (translate_run tr logs c).2, c ≤ p) ∧
      (translate_run tr logs c).2.Chain' (fun a b => a < b) := by
  intro logs
  induction logs with
  | nil => intro c; simp [translate_run]
  | cons log rest ih =>
    intro c
    by_cases h : c < log.length
    · rw [translate_run, dif_pos h]
      cases htr : tr (log.get ⟨c, h⟩) with
      | ok out =>
        dsimp only
        obtain ⟨ih1, ih2, ih3⟩ := ih (c + 1)
        refine ⟨by omega, ?_, ?_⟩
        · intro p hp
          rcases List.mem_cons.mp hp with hp | hp
          · omega
          · have := ih2 p hp
            omega
        · refine List.chain'_cons'.mpr ⟨?_, ih3⟩
          intro y hy
          have := ih2 y (List.mem_of_mem_head? hy)
          omega
      | error e => simp
    · rw [translate_run, dif_neg h]
      exact ih c

/-- C9: over any run of the translator consumer — whatever the log
snapshots and however the model behaves — the cursor never decreases, and
the positions it reads are strictly increasing, hence no position is ever
read twice. -/
theorem consumer_cursor_monotone (tr : String → Except String String)
    (logs : List (List String)) (c : Nat) :
    c ≤ (translate_run tr logs c).1 ∧
    (∀ p ∈ (translate_run tr logs c).2, c ≤ p) ∧
    (translate_run tr logs c).2.Chain' (fun a b => a < b) ∧
    (translate_run tr logs c).2.Nodup := by
  obtain ⟨h1, h2, h3⟩ := translate_run_spec tr logs c
  refine ⟨h1, h2, h3, ?_⟩
  have hp : (translate_run tr logs c).2.Pairwise (fun a b => a < b) :=
    List.chain'_iff_pairwise.mp h3
  exact hp.imp (fun h => Nat.ne_of_lt h)

end SecureTransPad
